import Mathlib

/-!
Shallow embedding of the agent-swarm core (context store, agent registry,
message bus, coordinator routing) and proofs of the specified properties.

Each definition mirrors one Python function of the repository:
  * `tools/core/context_store.py`  (JSONFileContextStore)
  * `tools/core/agent_registry.py` (Agent, Task, AgentRegistry)
  * `tools/core/message_bus.py`    (Message, InMemoryMessageBus)
  * `dashboard/app/agents/coordinator.py` (CoordinatorAgent.route_incoming_task)

Python dicts are modelled as insertion-ordered association lists, Python
sets as duplicate-free lists, and nondeterministic inputs (generated uuids,
wall-clock timestamps) are passed in as explicit parameters.
-/

namespace Swarm

/-- JSON-like values stored in the context tree (and used for opaque
payload / metadata maps). Mirrors what `json.dump` can hold. -/
inductive Value where
  | null : Value
  | bool (b : Bool) : Value
  | int (n : Int) : Value
  | str (s : String) : Value
  | list (xs : List Value) : Value
  | dict (xs : List (String × Value)) : Value
deriving Repr

/-- Python dict lookup `d.get(k)` on an insertion-ordered association list. -/
def dictGet {α : Type} (xs : List (String × α)) (k : String) : Option α :=
  match xs with
  | [] => none
  | (k', v) :: rest => if k' = k then some v else dictGet rest k

/-- Python dict assignment `d[k] = v`: replaces in place if the key exists
(keeping its position), otherwise appends (insertion order). -/
def dictSet {α : Type} (xs : List (String × α)) (k : String) (v : α) :
    List (String × α) :=
  match xs with
  | [] => [(k, v)]
  | (k', v') :: rest =>
    if k' = k then (k, v) :: rest else (k', v') :: dictSet rest k v

/-- Python `d.update(updates)`: assigns every pair of `updates` in order. -/
def dictUpdate {α : Type} (xs updates : List (String × α)) :
    List (String × α) :=
  updates.foldl (fun acc kv => dictSet acc kv.1 kv.2) xs

theorem dictGet_dictSet_self {α : Type} (xs : List (String × α)) (k : String)
    (v : α) : dictGet (dictSet xs k v) k = some v := by
  induction xs with
  | nil => simp [dictGet, dictSet]
  | cons hd tl ih =>
    obtain ⟨k', v'⟩ := hd
    by_cases h : k' = k
    · simp [dictGet, dictSet, h]
    · simp [dictGet, dictSet, h, ih]

/-- `JSONFileContextStore.get_context` without its default argument:
walk the dot-path through nested dicts, `none` when the path misses
(the caller then substitutes the default). -/
def getAtKeys : Value → List String → Option Value
  | v, [] => some v
  | Value.dict xs, k :: rest =>
    match dictGet xs k with
    | some v => getAtKeys v rest
    | none => none
  | _, _ :: _ => none

/-- `JSONFileContextStore.set_context`: navigate to the parent, creating
empty dicts for missing intermediate keys, then assign the last key.
Returns `none` exactly where Python would raise `TypeError` (an
intermediate existing value is not a dict). -/
def setAtKeys : Value → List String → Value → Option Value
  | Value.dict xs, [k], v => some (Value.dict (dictSet xs k v))
  | Value.dict xs, k :: k2 :: rest, v =>
    let child := (dictGet xs k).getD (Value.dict [])
    match setAtKeys child (k2 :: rest) v with
    | some c => some (Value.dict (dictSet xs k c))
    | none => none
  | _, _, _ => none

/-- Python `str.split('.')` on the character list: every dot is a
separator, so the result always has one more part than there are dots
(in particular it is never empty). -/
def splitDot : List Char → List (List Char)
  | [] => [[]]
  | c :: rest =>
    match splitDot rest with
    | [] => [[]]
    | w :: ws => if c = '.' then [] :: w :: ws else (c :: w) :: ws

/-- Dot-notation path split, as `path.split('.')`. -/
def splitPath (path : String) : List String :=
  (splitDot path.data).map (fun cs => String.mk cs)

theorem splitDot_ne_nil (cs : List Char) : splitDot cs ≠ [] := by
  cases cs with
  | nil => simp [splitDot]
  | cons c rest =>
    simp only [splitDot]
    cases splitDot rest with
    | nil => simp
    | cons w ws =>
      by_cases h : c = '.' <;> simp [h]

theorem splitPath_ne_nil (path : String) : splitPath path ≠ [] := by
  simp [splitPath, splitDot_ne_nil]

/-- `get_context(path, default)` with the default left to the caller. -/
def get_context (t : Value) (path : String) : Option Value :=
  getAtKeys t (splitPath path)

/-- `set_context(path, value)`; `none` models a raised `TypeError`. -/
def set_context (t : Value) (path : String) (v : Value) : Option Value :=
  setAtKeys t (splitPath path) v

/-- `JSONFileContextStore.update_context(path, updates)`: fetch the value at
`path` (default `{}`), fail (return `false`, tree untouched) when it is not
a dict, otherwise merge `updates` into it and store the result. The outer
`none` models a `TypeError` escaping from `set_context`. -/
def update_context (t : Value) (path : String) (updates : List (String × Value)) :
    Option (Bool × Value) :=
  match (get_context t path).getD (Value.dict []) with
  | Value.dict xs =>
    match set_context t path (Value.dict (dictUpdate xs updates)) with
    | some t' => some (true, t')
    | none => none
  | _ => some (false, t)

/-- `JSONFileContextStore.append_to_list(path, item)`: fetch the list at
`path` (default `[]`), fail when the existing value is not a list,
otherwise append and store back. -/
def append_to_list (t : Value) (path : String) (item : Value) :
    Option (Bool × Value) :=
  match (get_context t path).getD (Value.list []) with
  | Value.list xs =>
    match set_context t path (Value.list (xs ++ [item])) with
    | some t' => some (true, t')
    | none => none
  | _ => some (false, t)

theorem getAtKeys_setAtKeys (keys : List String) :
    ∀ (t t' v : Value), setAtKeys t keys v = some t' →
      getAtKeys t' keys = some v := by
  induction keys with
  | nil => intro t t' v h; cases t <;> simp [setAtKeys] at h
  | cons k rest ih =>
    intro t t' v h
    cases t with
    | dict xs =>
      cases rest with
      | nil =>
        simp only [setAtKeys, Option.some.injEq] at h
        subst h
        simp [getAtKeys, dictGet_dictSet_self]
      | cons k2 rest2 =>
        simp only [setAtKeys] at h
        rcases hc : setAtKeys ((dictGet xs k).getD (Value.dict []))
            (k2 :: rest2) v with _ | c
        · rw [hc] at h; simp at h
        · rw [hc] at h
          simp only [Option.some.injEq] at h
          subst h
          simp only [getAtKeys, dictGet_dictSet_self]
          exact ih _ _ _ hc
    | null => simp [setAtKeys] at h
    | bool b => simp [setAtKeys] at h
    | int n => simp [setAtKeys] at h
    | str s => simp [setAtKeys] at h
    | list l => simp [setAtKeys] at h

theorem setAtKeys_of_getAtKeys (keys : List String) :
    ∀ (t v w : Value), keys ≠ [] → getAtKeys t keys = some v →
      ∃ t', setAtKeys t keys w = some t' := by
  induction keys with
  | nil => intro t v w hne _; exact absurd rfl hne
  | cons k rest ih =>
    intro t v w _ h
    cases t with
    | dict xs =>
      cases hg : dictGet xs k with
      | none => simp [getAtKeys, hg] at h
      | some child =>
        simp only [getAtKeys, hg] at h
        cases rest with
        | nil => exact ⟨Value.dict (dictSet xs k w), by simp [setAtKeys]⟩
        | cons k2 rest2 =>
          obtain ⟨c, hc⟩ := ih child v w (by simp) h
          refine ⟨Value.dict (dictSet xs k c), ?_⟩
          simp [setAtKeys, hg, hc]
    | null => simp [getAtKeys] at h
    | bool b => simp [getAtKeys] at h
    | int n => simp [getAtKeys] at h
    | str s => simp [getAtKeys] at h
    | list l => simp [getAtKeys] at h

/-- `AgentStatus` enum from `agent_registry.py`. -/
inductive AgentStatus where
  | starting : AgentStatus
  | idle : AgentStatus
  | busy : AgentStatus
  | error : AgentStatus
  | offline : AgentStatus
deriving DecidableEq, Repr

/-- `.value` of the `AgentStatus` enum member. -/
def AgentStatus.value : AgentStatus → String
  | .starting => "starting"
  | .idle => "idle"
  | .busy => "busy"
  | .error => "error"
  | .offline => "offline"

/-- `AgentStatus(data['status'])`: enum lookup by value, `none` models the
raised `ValueError` for an unknown string. -/
def AgentStatus.ofValue (s : String) : Option AgentStatus :=
  if s = "starting" then some .starting
  else if s = "idle" then some .idle
  else if s = "busy" then some .busy
  else if s = "error" then some .error
  else if s = "offline" then some .offline
  else none

/-- `Task` dataclass from `agent_registry.py`. Timestamps are opaque
strings supplied by the environment. -/
structure Task where
  task_id : String
  workflow : String
  description : String
  priority : String
  assigned_at : String
  started_at : Option String := none
  completed_at : Option String := none
  status : String := "pending"
deriving DecidableEq, Repr

/-- `asdict` form of a `Task` (a plain field dict; `Task.status` is already
a string so `asdict` copies every field unchanged). -/
structure TaskDict where
  task_id : String
  workflow : String
  description : String
  priority : String
  assigned_at : String
  started_at : Option String
  completed_at : Option String
  status : String
deriving DecidableEq, Repr

/-- `asdict` applied to a `Task`. -/
def Task.to_dict (t : Task) : TaskDict :=
  { task_id := t.task_id, workflow := t.workflow, description := t.description,
    priority := t.priority, assigned_at := t.assigned_at,
    started_at := t.started_at, completed_at := t.completed_at,
    status := t.status }

/-- `Task(**task)` reconstruction used inside `Agent.from_dict`. -/
def Task.of_dict (d : TaskDict) : Task :=
  { task_id := d.task_id, workflow := d.workflow, description := d.description,
    priority := d.priority, assigned_at := d.assigned_at,
    started_at := d.started_at, completed_at := d.completed_at,
    status := d.status }

/-- `Agent` dataclass from `agent_registry.py`. `metadata` is an opaque
dict of JSON-like values; timestamp fields are opaque strings. -/
structure Agent where
  agent_id : String
  role : String
  capabilities : List String
  workflows : List String
  status : AgentStatus
  current_tasks : List Task := []
  completed_tasks : Nat := 0
  failed_tasks : Nat := 0
  registered_at : String
  last_heartbeat : String
  max_concurrent_tasks : Nat := 3
  metadata : List (String × Value) := []
deriving Repr

/-- Serialized (`to_dict`) form of an `Agent`: the status enum is replaced
by its string value and the nested tasks become task dicts. -/
structure AgentDict where
  agent_id : String
  role : String
  capabilities : List String
  workflows : List String
  status : String
  current_tasks : List TaskDict
  completed_tasks : Nat
  failed_tasks : Nat
  registered_at : String
  last_heartbeat : String
  max_concurrent_tasks : Nat
  metadata : List (String × Value)
deriving Repr

/-- `Agent.to_dict`: `asdict(self)` (which recursively converts the nested
`Task` dataclasses) followed by `data['status'] = self.status.value`. -/
def Agent.to_dict (a : Agent) : AgentDict :=
  { agent_id := a.agent_id, role := a.role, capabilities := a.capabilities,
    workflows := a.workflows, status := a.status.value,
    current_tasks := a.current_tasks.map Task.to_dict,
    completed_tasks := a.completed_tasks, failed_tasks := a.failed_tasks,
    registered_at := a.registered_at, last_heartbeat := a.last_heartbeat,
    max_concurrent_tasks := a.max_concurrent_tasks, metadata := a.metadata }

/-- `Agent.from_dict`: parse the status string back into the enum (raising,
i.e. `none`, on an unknown value) and rebuild each task via `Task(**task)`. -/
def Agent.from_dict (d : AgentDict) : Option Agent :=
  match AgentStatus.ofValue d.status with
  | none => none
  | some st =>
    some { agent_id := d.agent_id, role := d.role,
           capabilities := d.capabilities, workflows := d.workflows,
           status := st, current_tasks := d.current_tasks.map Task.of_dict,
           completed_tasks := d.completed_tasks, failed_tasks := d.failed_tasks,
           registered_at := d.registered_at, last_heartbeat := d.last_heartbeat,
           max_concurrent_tasks := d.max_concurrent_tasks,
           metadata := d.metadata }

theorem ofValue_value (s : AgentStatus) :
    AgentStatus.ofValue s.value = some s := by
  cases s <;> rfl

theorem task_roundtrip (t : Task) : Task.of_dict (Task.to_dict t) = t := rfl

/-- `AgentRegistry.assign_task`, restricted to the record of one registered
agent (`get_agent` / `_save_agent` round through `to_dict`/`from_dict`,
proved exact below, so the per-record view is the stored behaviour).
Capacity is checked first; on success the task is stamped, marked pending,
appended, and the agent becomes BUSY. -/
def assign_task (a : Agent) (t : Task) (now : String) : Bool × Agent :=
  if a.max_concurrent_tasks ≤ a.current_tasks.length then (false, a)
  else
    (true,
     { a with
        current_tasks :=
          a.current_tasks ++ [{ t with assigned_at := now, status := "pending" }],
        status := AgentStatus.busy })

/-- Find and pop the first task with the given id
(the `for i, task in enumerate(...)` / `pop(i)` loop). -/
def popTask : List Task → String → Option (Task × List Task)
  | [], _ => none
  | t :: rest, tid =>
    if t.task_id = tid then some (t, rest)
    else
      match popTask rest tid with
      | some (found, remaining) => some (found, t :: remaining)
      | none => none

/-- `AgentRegistry.complete_task` on one agent record: pop the task,
increment `completed_tasks`, drop back to IDLE when no tasks remain.
(The popped task itself only flows into the completed-tasks ledger.) -/
def complete_task (a : Agent) (task_id : String) : Bool × Agent :=
  match popTask a.current_tasks task_id with
  | none => (false, a)
  | some (_, rest) =>
    (true,
     { a with
        current_tasks := rest,
        completed_tasks := a.completed_tasks + 1,
        status := if rest.length = 0 then AgentStatus.idle else a.status })

/-- `AgentRegistry.fail_task` on one agent record: pop the task, increment
`failed_tasks`, drop back to IDLE when no tasks remain. -/
def fail_task (a : Agent) (task_id : String) : Bool × Agent :=
  match popTask a.current_tasks task_id with
  | none => (false, a)
  | some (_, rest) =>
    (true,
     { a with
        current_tasks := rest,
        failed_tasks := a.failed_tasks + 1,
        status := if rest.length = 0 then AgentStatus.idle else a.status })

/-- One registry call touching a single agent record. -/
inductive RegOp where
  | assign (t : Task) (now : String) : RegOp
  | complete (task_id : String) : RegOp
  | fail (task_id : String) : RegOp

/-- Apply one call, keeping only the resulting record. -/
def applyOp (a : Agent) : RegOp → Agent
  | .assign t now => (assign_task a t now).2
  | .complete tid => (complete_task a tid).2
  | .fail tid => (fail_task a tid).2

/-- Apply a sequence of assign/complete/fail calls in order. -/
def applyOps (a : Agent) (ops : List RegOp) : Agent :=
  ops.foldl applyOp a

/-- The agent record built by `AgentRegistry.register_agent` (status
STARTING, no tasks, zero counters, both timestamps set to now). -/
def mkFreshAgent (agent_id role : String) (capabilities workflows : List String)
    (max_concurrent : Nat) (metadata : List (String × Value)) (now : String) :
    Agent :=
  { agent_id := agent_id, role := role, capabilities := capabilities,
    workflows := workflows, status := AgentStatus.starting,
    current_tasks := [], completed_tasks := 0, failed_tasks := 0,
    registered_at := now, last_heartbeat := now,
    max_concurrent_tasks := max_concurrent, metadata := metadata }

theorem popTask_length (tid : String) :
    ∀ (l rest : List Task) (t : Task),
      popTask l tid = some (t, rest) → l.length = rest.length + 1 := by
  intro l
  induction l with
  | nil => intro rest t h; simp [popTask] at h
  | cons hd tl ih =>
    intro rest t h
    by_cases he : hd.task_id = tid
    · simp only [popTask, if_pos he] at h
      cases h
      simp
    · simp only [popTask, if_neg he] at h
      cases hq : popTask tl tid with
      | none => rw [hq] at h; simp at h
      | some q =>
        obtain ⟨f2, r2⟩ := q
        rw [hq] at h
        simp only [Option.some.injEq, Prod.mk.injEq] at h
        obtain ⟨_, hr⟩ := h
        subst hr
        have := ih r2 f2 hq
        simp only [List.length_cons]
        omega

theorem applyOp_capacity (a : Agent) (op : RegOp)
    (h : a.current_tasks.length ≤ a.max_concurrent_tasks) :
    (applyOp a op).current_tasks.length ≤ (applyOp a op).max_concurrent_tasks := by
  cases op with
  | assign t now =>
    simp only [applyOp, assign_task]
    by_cases hc : a.max_concurrent_tasks ≤ a.current_tasks.length
    · simpa [hc] using h
    · simp only [hc, if_false]
      simp only [List.length_append, List.length_cons, List.length_nil]
      omega
  | complete tid =>
    simp only [applyOp, complete_task]
    cases hp : popTask a.current_tasks tid with
    | none => simpa using h
    | some p =>
      obtain ⟨found, rest⟩ := p
      have := popTask_length tid a.current_tasks rest found hp
      simp only
      omega
  | fail tid =>
    simp only [applyOp, fail_task]
    cases hp : popTask a.current_tasks tid with
    | none => simpa using h
    | some p =>
      obtain ⟨found, rest⟩ := p
      have := popTask_length tid a.current_tasks rest found hp
      simp only
      omega

theorem applyOps_capacity (ops : List RegOp) :
    ∀ a : Agent, a.current_tasks.length ≤ a.max_concurrent_tasks →
      (applyOps a ops).current_tasks.length ≤ (applyOps a ops).max_concurrent_tasks := by
  induction ops with
  | nil => intro a h; simpa [applyOps] using h
  | cons op rest ih =>
    intro a h
    have step := applyOp_capacity a op h
    simpa [applyOps] using ih (applyOp a op) step

/-- C1: after any sequence of `assign_task` calls interleaved with
`complete_task`/`fail_task` on a freshly registered agent, the number of
current tasks never exceeds `max_concurrent_tasks`; an `assign_task` on an
agent already at capacity returns `False` and leaves the record
(tasks, status, counters) unchanged. -/
theorem C1_capacity_invariant :
    (∀ (agent_id role : String) (caps wfs : List String) (maxc : Nat)
       (md : List (String × Value)) (now : String) (ops : List RegOp),
       (applyOps (mkFreshAgent agent_id role caps wfs maxc md now) ops).current_tasks.length
         ≤ (applyOps (mkFreshAgent agent_id role caps wfs maxc md now) ops).max_concurrent_tasks) ∧
    (∀ (a : Agent) (t : Task) (now : String),
       a.max_concurrent_tasks ≤ a.current_tasks.length →
       assign_task a t now = (false, a)) := by
  constructor
  · intro agent_id role caps wfs maxc md now ops
    exact applyOps_capacity ops _ (by simp [mkFreshAgent])
  · intro a t now h
    simp [assign_task, h]

theorem C1_capacity_invariant_witness :
    assign_task (mkFreshAgent "dev-1" "developer_agent" [] [] 0 [] "t0")
        { task_id := "t1", workflow := "w", description := "d",
          priority := "high", assigned_at := "t0" } "t1"
      = (false, mkFreshAgent "dev-1" "developer_agent" [] [] 0 [] "t0") :=
  C1_capacity_invariant.2 _ _ _ (Nat.le_refl 0)

/-- The status-consistency invariant of the spec:
`status == BUSY` iff the agent currently holds at least one task. -/
def StatusConsistent (a : Agent) : Prop :=
  a.status = AgentStatus.busy ↔ 0 < a.current_tasks.length

theorem applyOp_statusConsistent (a : Agent) (op : RegOp)
    (h : StatusConsistent a) : StatusConsistent (applyOp a op) := by
  cases op with
  | assign t now =>
    simp only [applyOp, assign_task]
    by_cases hc : a.max_concurrent_tasks ≤ a.current_tasks.length
    · simpa [hc] using h
    · simp only [hc, if_false]
      constructor
      · intro _; simp
      · intro _; rfl
  | complete tid =>
    simp only [applyOp, complete_task]
    cases hp : popTask a.current_tasks tid with
    | none => simpa using h
    | some p =>
      obtain ⟨found, rest⟩ := p
      have hlen := popTask_length tid a.current_tasks rest found hp
      by_cases hz : rest.length = 0
      · simp [StatusConsistent, hz]
      · have hbusy : a.status = AgentStatus.busy := h.mpr (by omega)
        simp only [StatusConsistent, hz, if_neg hz, hbusy]
        constructor
        · intro _; omega
        · intro _; rfl
  | fail tid =>
    simp only [applyOp, fail_task]
    cases hp : popTask a.current_tasks tid with
    | none => simpa using h
    | some p =>
      obtain ⟨found, rest⟩ := p
      have hlen := popTask_length tid a.current_tasks rest found hp
      by_cases hz : rest.length = 0
      · simp [StatusConsistent, hz]
      · have hbusy : a.status = AgentStatus.busy := h.mpr (by omega)
        simp only [StatusConsistent, hz, if_neg hz, hbusy]
        constructor
        · intro _; omega
        · intro _; rfl

theorem applyOps_statusConsistent (ops : List RegOp) :
    ∀ a : Agent, StatusConsistent a → StatusConsistent (applyOps a ops) := by
  induction ops with
  | nil => intro a h; simpa [applyOps] using h
  | cons op rest ih =>
    intro a h
    simpa [applyOps] using ih (applyOp a op) (applyOp_statusConsistent a op h)

/-- C2: starting from a freshly registered agent, after every
`assign_task` / `complete_task` / `fail_task` call the agent's status is
BUSY if and only if it holds at least one current task. -/
theorem C2_status_consistency (agent_id role : String)
    (caps wfs : List String) (maxc : Nat) (md : List (String × Value))
    (now : String) (ops : List RegOp) :
    StatusConsistent (applyOps (mkFreshAgent agent_id role caps wfs maxc md now) ops) := by
  apply applyOps_statusConsistent
  constructor
  · intro hb; cases hb
  · intro hlt; simp [mkFreshAgent] at hlt

/-- C8: serialization round-trip — `Agent.from_dict (Agent.to_dict a)`
reproduces the agent exactly, for every status, task list, counters and
metadata. -/
theorem C8_roundtrip (a : Agent) : Agent.from_dict (Agent.to_dict a) = some a := by
  simp only [Agent.from_dict, Agent.to_dict, ofValue_value, List.map_map]
  have hmap : a.current_tasks.map (Task.of_dict ∘ Task.to_dict) = a.current_tasks := by
    have : Task.of_dict ∘ Task.to_dict = id := funext task_roundtrip
    simp [this]
  rw [hmap]

/-- One role's entry in the `agent_roles.yaml` config (fields optional,
matching the `.get(..., default)` reads in `register_agent`). -/
structure RoleConfig where
  capabilities : Option (List String)
  workflows : Option (List String)
  max_concurrent_tasks : Option Nat

/-- The registry's persistent state inside the context store: the
serialized records under `agents.{agent_id}` and the
`system.active_agents` list. -/
structure RegistryState where
  agents : List (String × AgentDict)
  active_agents : List String

/-- `AgentRegistry._save_agent`: store `agent.to_dict()` under the id. -/
def save_agent (r : RegistryState) (a : Agent) : RegistryState :=
  { r with agents := dictSet r.agents a.agent_id a.to_dict }

/-- `AgentRegistry._is_registered`: the stored record exists (stored
records are dicts, hence never `None`). -/
def is_registered (r : RegistryState) (agent_id : String) : Bool :=
  (dictGet r.agents agent_id).isSome

/-- `AgentRegistry.register_agent`: refuse an already-registered id,
otherwise resolve capabilities/workflows/limit from the explicit arguments
or the role config (defaults `[]`, `[]`, `3`), store the fresh STARTING
record, and append the id to the active list. -/
def register_agent (r : RegistryState) (config : List (String × RoleConfig))
    (agent_id role : String) (capabilities workflows : Option (List String))
    (metadata : Option (List (String × Value))) (now : String) :
    Bool × RegistryState :=
  if is_registered r agent_id then (false, r)
  else
    let resolved :=
      match dictGet config role with
      | some rc =>
        (capabilities.getD (rc.capabilities.getD []),
         workflows.getD (rc.workflows.getD []),
         rc.max_concurrent_tasks.getD 3)
      | none => (capabilities.getD [], workflows.getD [], 3)
    let agent := mkFreshAgent agent_id role resolved.1 resolved.2.1
      resolved.2.2 (metadata.getD []) now
    let r2 := save_agent r agent
    (true, { r2 with active_agents := r2.active_agents ++ [agent_id] })

/-- C6: registering an already-registered `agent_id` returns `False`
(raising nothing) and leaves the whole registry state — in particular the
first registration's stored record — untouched; and any `register_agent`
call leaves the id registered, so a second registration with no
intervening deregister always hits that case. -/
theorem C6_registration_uniqueness :
    (∀ (r : RegistryState) (config : List (String × RoleConfig))
       (agent_id role : String) (caps wfs : Option (List String))
       (md : Option (List (String × Value))) (now : String),
       is_registered r agent_id = true →
       register_agent r config agent_id role caps wfs md now = (false, r)) ∧
    (∀ (r : RegistryState) (config : List (String × RoleConfig))
       (agent_id role : String) (caps wfs : Option (List String))
       (md : Option (List (String × Value))) (now : String),
       is_registered
         (register_agent r config agent_id role caps wfs md now).2 agent_id
         = true) := by
  constructor
  · intro r config agent_id role caps wfs md now h
    simp [register_agent, h]
  · intro r config agent_id role caps wfs md now
    by_cases h : is_registered r agent_id = true
    · simp [register_agent, h]
    · simp only [register_agent, h, if_neg, Bool.not_eq_true] at *
      simp [h, is_registered, save_agent, mkFreshAgent, dictGet_dictSet_self]

/-- An empty registry, then `register_agent` twice with the same id:
the second call fails and changes nothing. -/
theorem C6_registration_uniqueness_witness :
    register_agent
        (register_agent ⟨[], []⟩ [] "coord-1" "coordinator" none none none "t0").2
        [] "coord-1" "coordinator" none none none "t1"
      = (false,
         (register_agent ⟨[], []⟩ [] "coord-1" "coordinator" none none none "t0").2) :=
  C6_registration_uniqueness.1 _ [] "coord-1" "coordinator" none none none "t1"
    (C6_registration_uniqueness.2 ⟨[], []⟩ [] "coord-1" "coordinator" none none none "t0")

/-- Result record of `AgentRegistry.get_system_stats`. -/
structure SystemStats where
  total_agents : Nat
  active_tasks : Nat
  completed_tasks : Nat
  failed_tasks : Nat
  agents_by_status : List (String × Nat)

/-- `AgentRegistry.get_system_stats` over the list of active agents: the
per-status breakdown dict is built with exactly the four keys
idle/busy/error/starting (OFFLINE has no key). -/
def get_system_stats (agents : List Agent) : SystemStats :=
  { total_agents := agents.length,
    active_tasks := (agents.map (fun a => a.current_tasks.length)).sum,
    completed_tasks := (agents.map (fun a => a.completed_tasks)).sum,
    failed_tasks := (agents.map (fun a => a.failed_tasks)).sum,
    agents_by_status :=
      [("idle", (agents.filter (fun a => a.status == AgentStatus.idle)).length),
       ("busy", (agents.filter (fun a => a.status == AgentStatus.busy)).length),
       ("error", (agents.filter (fun a => a.status == AgentStatus.error)).length),
       ("starting",
        (agents.filter (fun a => a.status == AgentStatus.starting)).length)] }

theorem status_partition (agents : List Agent) :
    (agents.filter (fun a => a.status == AgentStatus.idle)).length
      + (agents.filter (fun a => a.status == AgentStatus.busy)).length
      + (agents.filter (fun a => a.status == AgentStatus.error)).length
      + (agents.filter (fun a => a.status == AgentStatus.starting)).length
      + (agents.filter (fun a => a.status == AgentStatus.offline)).length
      = agents.length := by
  induction agents with
  | nil => rfl
  | cons a rest ih =>
    cases h : a.status <;> simp [List.filter_cons, h] <;> omega

/-- C10: `get_system_stats` counts OFFLINE agents in `total_agents` but
gives `agents_by_status` keys only for idle, busy, error and starting, so
the breakdown sums to `total_agents` minus the number of OFFLINE agents —
strictly less whenever some agent is OFFLINE. -/
theorem C10_stats_omit_offline (agents : List Agent) :
    ((get_system_stats agents).agents_by_status.map Prod.fst
        = ["idle", "busy", "error", "starting"]) ∧
    (((get_system_stats agents).agents_by_status.map Prod.snd).sum
        = (get_system_stats agents).total_agents
          - (agents.filter (fun a => a.status == AgentStatus.offline)).length) ∧
    (0 < (agents.filter (fun a => a.status == AgentStatus.offline)).length →
      ((get_system_stats agents).agents_by_status.map Prod.snd).sum
        < (get_system_stats agents).total_agents) := by
  have hpart := status_partition agents
  refine ⟨rfl, ?_, ?_⟩
  · simp only [get_system_stats, List.map_cons, List.map_nil, List.sum_cons,
      List.sum_nil]
    omega
  · intro hoff
    simp only [get_system_stats, List.map_cons, List.map_nil, List.sum_cons,
      List.sum_nil]
    omega

/-- One OFFLINE agent: the breakdown sums to 0 while `total_agents` is 1. -/
theorem C10_stats_omit_offline_witness :
    (((get_system_stats
          [{ mkFreshAgent "a1" "coordinator" [] [] 3 [] "t0" with
              status := AgentStatus.offline }]).agents_by_status.map
        Prod.snd).sum
      < (get_system_stats
          [{ mkFreshAgent "a1" "coordinator" [] [] 3 [] "t0" with
              status := AgentStatus.offline }]).total_agents) :=
  (C10_stats_omit_offline _).2.2 (by decide)

/-- C7: `update_context` shallow-merges into the mapping stored at `path`
and returns `True`; when the existing value at `path` is present but not a
mapping it returns `False` and leaves the tree unmodified; and the
scenario `set("a.b.c", 1)` then `update("a.b", {"d": 2})` makes
`get("a.b")` return `{"c": 1, "d": 2}` (from any store whose top level
has no `"a"` key, as the freshly seeded JSON store does). -/
theorem C7_update_shallow_merge :
    (∀ (t : Value) (path : String) (xs updates : List (String × Value)),
       get_context t path = some (Value.dict xs) →
       ∃ t', update_context t path updates = some (true, t') ∧
         get_context t' path = some (Value.dict (dictUpdate xs updates))) ∧
    (∀ (t : Value) (path : String) (v : Value)
       (updates : List (String × Value)),
       get_context t path = some v → (∀ xs, v ≠ Value.dict xs) →
       update_context t path updates = some (false, t)) ∧
    (∀ top : List (String × Value), dictGet top "a" = none →
       ∃ t1 t2 : Value,
         set_context (Value.dict top) "a.b.c" (Value.int 1) = some t1 ∧
         update_context t1 "a.b" [("d", Value.int 2)] = some (true, t2) ∧
         get_context t2 "a.b"
           = some (Value.dict [("c", Value.int 1), ("d", Value.int 2)])) := by
  refine ⟨?_, ?_, ?_⟩
  · intro t path xs updates h
    obtain ⟨t', ht'⟩ := setAtKeys_of_getAtKeys (splitPath path) t
      (Value.dict xs) (Value.dict (dictUpdate xs updates))
      (splitPath_ne_nil path) h
    have h' : getAtKeys t (splitPath path) = some (Value.dict xs) := h
    refine ⟨t', ?_, ?_⟩
    · simp only [update_context, get_context, set_context, h',
        Option.getD_some, ht']
    · exact getAtKeys_setAtKeys (splitPath path) t t' _ ht'
  · intro t path v updates h hnd
    have h' : getAtKeys t (splitPath path) = some v := h
    cases v with
    | dict xs => exact absurd rfl (hnd xs)
    | null => simp [update_context, get_context, h']
    | bool b => simp [update_context, get_context, h']
    | int n => simp [update_context, get_context, h']
    | str s => simp [update_context, get_context, h']
    | list l => simp [update_context, get_context, h']
  · intro top h
    have hsp3 : splitPath "a.b.c" = ["a", "b", "c"] := by decide
    have hsp2 : splitPath "a.b" = ["a", "b"] := by decide
    refine ⟨Value.dict (dictSet top "a"
        (Value.dict [("b", Value.dict [("c", Value.int 1)])])),
      Value.dict (dictSet (dictSet top "a"
          (Value.dict [("b", Value.dict [("c", Value.int 1)])])) "a"
        (Value.dict [("b",
          Value.dict [("c", Value.int 1), ("d", Value.int 2)])])),
      ?_, ?_, ?_⟩
    · simp [set_context, hsp3, setAtKeys, h, dictGet, dictSet]
    · simp [update_context, get_context, set_context, hsp2, getAtKeys,
        setAtKeys, dictGet_dictSet_self, dictGet, dictSet, dictUpdate]
    · simp [get_context, hsp2, getAtKeys, dictGet_dictSet_self, dictGet]

/-- The C7 scenario run on an initially empty store. -/
theorem C7_update_shallow_merge_witness :
    ∃ t1 t2 : Value,
      set_context (Value.dict []) "a.b.c" (Value.int 1) = some t1 ∧
      update_context t1 "a.b" [("d", Value.int 2)] = some (true, t2) ∧
      get_context t2 "a.b"
        = some (Value.dict [("c", Value.int 1), ("d", Value.int 2)]) :=
  C7_update_shallow_merge.2.2 [] rfl

theorem dictGet_dictSet_ne {α : Type} (xs : List (String × α)) (k k' : String)
    (v : α) (h : k ≠ k') : dictGet (dictSet xs k v) k' = dictGet xs k' := by
  induction xs with
  | nil => simp [dictGet, dictSet, h]
  | cons hd tl ih =>
    obtain ⟨k0, v0⟩ := hd
    by_cases h0 : k0 = k
    · subst h0; simp [dictGet, dictSet, h]
    · simp [dictGet, dictSet, h0, ih]

/-- `MessageType` enum from `message_bus.py`. -/
inductive MessageType where
  | task_assignment : MessageType
  | status_update : MessageType
  | task_complete : MessageType
  | task_failed : MessageType
  | request : MessageType
  | response : MessageType
  | broadcast : MessageType
  | escalation : MessageType
deriving DecidableEq, Repr

/-- `Message` dataclass from `message_bus.py`. -/
structure Message where
  id : String
  timestamp : String
  from_agent : String
  to_agent : String
  message_type : MessageType
  payload : List (String × Value)
  priority : String := "normal"
  requires_response : Bool := false
  correlation_id : Option String := none
deriving Repr

/-- State of an `InMemoryMessageBus`. Callbacks are opaque tokens
(numbers); `invocations` is the observation log of every `callback(message)`
call the bus performs, appended in call order. -/
structure BusState where
  messages : List (String × List Message)
  message_store : List (String × Message)
  acknowledged : List String
  subscribers : List (String × List Nat)
  invocations : List (Nat × Message)

/-- `InMemoryMessageBus.__init__`. -/
def emptyBus : BusState :=
  { messages := [], message_store := [], acknowledged := [],
    subscribers := [], invocations := [] }

/-- The `priority_order` lookup of `_sort_queue`:
`{"urgent": 0, "high": 1, "normal": 2, "low": 3}.get(p, 2)`. -/
def priorityRank (p : String) : Nat :=
  if p = "urgent" then 0
  else if p = "high" then 1
  else if p = "normal" then 2
  else if p = "low" then 3
  else 2

/-- Insert a message after every queued message of equal-or-lower rank
(strictly before the first of greater rank). -/
def insertStable (l : List Message) (m : Message) : List Message :=
  match l with
  | [] => [m]
  | x :: xs =>
    if priorityRank m.priority < priorityRank x.priority then m :: x :: xs
    else x :: insertStable xs m

/-- `_sort_queue`: Python's `list.sort(key=priority rank)` is a stable sort,
modelled by stable insertion from the left; the characterization
`sortQueue_eq_rankBlocks` below pins its meaning down extensionally. -/
def sortQueue (l : List Message) : List Message :=
  l.foldl insertStable []

/-- The messages of rank `i`, kept in their relative order. -/
def rankFilter (i : Nat) (l : List Message) : List Message :=
  l.filter (fun m => priorityRank m.priority == i)

/-- What a stable sort by the four-valued rank produces: the urgent block,
then high, then normal, then low, each in arrival order. -/
def rankBlocks (l : List Message) : List Message :=
  rankFilter 0 l ++ rankFilter 1 l ++ rankFilter 2 l ++ rankFilter 3 l

/-- `InMemoryMessageBus.publish_message`: build the message (its generated
uuid and timestamp are the explicit `fresh_id`/`timestamp` inputs), store
it, append it to the recipient's queue, re-sort that queue by priority,
then invoke every subscriber callback of the recipient on it. -/
def publish_message (b : BusState) (fresh_id timestamp from_agent to_agent : String)
    (message_type : MessageType) (payload : List (String × Value))
    (priority : String) (requires_response : Bool) : String × BusState :=
  let m : Message :=
    { id := fresh_id, timestamp := timestamp, from_agent := from_agent,
      to_agent := to_agent, message_type := message_type, payload := payload,
      priority := priority, requires_response := requires_response }
  let q := (dictGet b.messages to_agent).getD []
  let subs := (dictGet b.subscribers to_agent).getD []
  (m.id,
   { b with
      message_store := dictSet b.message_store m.id m,
      messages := dictSet b.messages to_agent (sortQueue (q ++ [m])),
      invocations := b.invocations ++ subs.map (fun c => (c, m)) })

/-- `InMemoryMessageBus.subscribe_to_messages`: append the callback to the
agent's subscriber list and create an empty queue if none exists. Nothing
else happens — in particular no queued message is delivered. -/
def subscribe_to_messages (b : BusState) (agent_id : String) (cb : Nat) :
    BusState :=
  { b with
     subscribers := dictSet b.subscribers agent_id
       (((dictGet b.subscribers agent_id).getD []) ++ [cb]),
     messages :=
       if (dictGet b.messages agent_id).isSome then b.messages
       else dictSet b.messages agent_id [] }

/-- `InMemoryMessageBus.get_pending_messages`: the queued messages whose id
has not been acknowledged, truncated to `limit` (default 10). -/
def get_pending_messages (b : BusState) (agent_id : String) (limit : Nat) :
    List Message :=
  match dictGet b.messages agent_id with
  | none => []
  | some q => (q.filter (fun m => !(b.acknowledged.contains m.id))).take limit

/-- Python `set.add`. -/
def setAdd (s : List String) (x : String) : List String :=
  if x ∈ s then s else s ++ [x]

/-- `InMemoryMessageBus.acknowledge_message`: succeed exactly when the id
was ever published (is in the store), adding it to the acknowledged set. -/
def acknowledge_message (b : BusState) (message_id : String) : Bool × BusState :=
  if (dictGet b.message_store message_id).isSome then
    (true, { b with acknowledged := setAdd b.acknowledged message_id })
  else (false, b)

theorem setAdd_idem (s : List String) (x : String) :
    setAdd (setAdd s x) x = setAdd s x := by
  by_cases h : x ∈ s
  · simp [setAdd, h]
  · simp [setAdd, h]

/-- C9: `acknowledge_message` returns `True` exactly when the id names a
previously published (stored) message; acknowledging the same id twice
returns `True` both times and the second call leaves the bus exactly as
the first left it; an unknown id yields `False` and no state change. -/
theorem C9_ack_idempotent :
    (∀ (b : BusState) (mid : String),
       (acknowledge_message b mid).1 = true ↔
         (dictGet b.message_store mid).isSome = true) ∧
    (∀ (b : BusState) (mid : String),
       (dictGet b.message_store mid).isSome = true →
       acknowledge_message ((acknowledge_message b mid).2) mid
         = (true, (acknowledge_message b mid).2)) ∧
    (∀ (b : BusState) (mid : String),
       dictGet b.message_store mid = none →
       acknowledge_message b mid = (false, b)) := by
  refine ⟨?_, ?_, ?_⟩
  · intro b mid
    by_cases h : (dictGet b.message_store mid).isSome = true
    · simp [acknowledge_message, h]
    · simp [acknowledge_message, h]
  · intro b mid h
    simp [acknowledge_message, h, setAdd_idem]
  · intro b mid h
    simp [acknowledge_message, h]

/-- A bus holding exactly one published message, `"m1"` to `"bob"`. -/
def oneMsgBus : BusState :=
  (publish_message emptyBus "m1" "t1" "coordinator" "bob"
    MessageType.task_assignment [] "normal" false).2

/-- Acknowledging `"m1"` twice on `oneMsgBus`: the second call also
reports success and changes nothing. -/
theorem C9_ack_idempotent_witness :
    acknowledge_message ((acknowledge_message oneMsgBus "m1").2) "m1"
      = (true, (acknowledge_message oneMsgBus "m1").2) :=
  C9_ack_idempotent.2.1 oneMsgBus "m1" rfl

theorem mem_rankFilter {i : Nat} {l : List Message} {x : Message}
    (h : x ∈ rankFilter i l) : priorityRank x.priority = i := by
  have := List.of_mem_filter h
  simpa using this

theorem insertStable_append_le (m : Message) (l2 : List Message) :
    ∀ l1 : List Message,
      (∀ x ∈ l1, priorityRank x.priority ≤ priorityRank m.priority) →
      insertStable (l1 ++ l2) m = l1 ++ insertStable l2 m := by
  intro l1
  induction l1 with
  | nil => intro _; rfl
  | cons x xs ih =>
    intro h
    have hx := h x (List.mem_cons_self x xs)
    have ih' := ih (fun y hy => h y (List.mem_cons_of_mem x hy))
    simp only [List.cons_append, insertStable]
    rw [if_neg (by omega)]
    simp only [List.append_eq] at ih' ⊢
    rw [ih']

theorem insertStable_all_gt (m : Message) (l : List Message)
    (h : ∀ x ∈ l, priorityRank m.priority < priorityRank x.priority) :
    insertStable l m = m :: l := by
  cases l with
  | nil => rfl
  | cons x xs =>
    simp only [insertStable]
    rw [if_pos (h x (List.mem_cons_self x xs))]

theorem insert_into_blocks (m : Message) (A B : List Message)
    (hA : ∀ x ∈ A, priorityRank x.priority ≤ priorityRank m.priority)
    (hB : ∀ x ∈ B, priorityRank m.priority < priorityRank x.priority) :
    insertStable (A ++ B) m = A ++ m :: B := by
  rw [insertStable_append_le m B A hA, insertStable_all_gt m B hB]

theorem rankFilter_append (i : Nat) (l1 l2 : List Message) :
    rankFilter i (l1 ++ l2) = rankFilter i l1 ++ rankFilter i l2 := by
  simp [rankFilter, List.filter_append]

theorem rankFilter_singleton (i : Nat) (m : Message) :
    rankFilter i [m] = if priorityRank m.priority = i then [m] else [] := by
  by_cases h : priorityRank m.priority = i
  · simp [rankFilter, List.filter_cons, h]
  · simp [rankFilter, List.filter_cons, h]

theorem priorityRank_cases (p : String) :
    priorityRank p = 0 ∨ priorityRank p = 1 ∨ priorityRank p = 2 ∨
      priorityRank p = 3 := by
  unfold priorityRank
  split_ifs <;> simp

theorem insertStable_rankBlocks (acc : List Message) (m : Message) :
    insertStable (rankBlocks acc) m = rankBlocks (acc ++ [m]) := by
  rcases priorityRank_cases m.priority with h | h | h | h
  · have key := insert_into_blocks m (rankFilter 0 acc)
        (rankFilter 1 acc ++ (rankFilter 2 acc ++ rankFilter 3 acc))
        (fun x hx => by rw [mem_rankFilter hx]; omega)
        (fun x hx => by
          rcases List.mem_append.mp hx with hx' | hx'
          · rw [mem_rankFilter hx']; omega
          · rcases List.mem_append.mp hx' with hx2 | hx2 <;>
              (rw [mem_rankFilter hx2]; omega))
    simp only [rankBlocks, rankFilter_append, rankFilter_singleton, h]
    rw [show rankFilter 0 acc ++ rankFilter 1 acc ++ rankFilter 2 acc ++
        rankFilter 3 acc
      = rankFilter 0 acc ++
        (rankFilter 1 acc ++ (rankFilter 2 acc ++ rankFilter 3 acc)) by
      simp [List.append_assoc]]
    rw [key]
    simp
  · have key := insert_into_blocks m
        (rankFilter 0 acc ++ rankFilter 1 acc)
        (rankFilter 2 acc ++ rankFilter 3 acc)
        (fun x hx => by
          rcases List.mem_append.mp hx with hx' | hx' <;>
            (rw [mem_rankFilter hx']; omega))
        (fun x hx => by
          rcases List.mem_append.mp hx with hx' | hx' <;>
            (rw [mem_rankFilter hx']; omega))
    simp only [rankBlocks, rankFilter_append, rankFilter_singleton, h]
    rw [show rankFilter 0 acc ++ rankFilter 1 acc ++ rankFilter 2 acc ++
        rankFilter 3 acc
      = (rankFilter 0 acc ++ rankFilter 1 acc) ++
        (rankFilter 2 acc ++ rankFilter 3 acc) by
      simp [List.append_assoc]]
    rw [key]
    simp
  · have key := insert_into_blocks m
        (rankFilter 0 acc ++ rankFilter 1 acc ++ rankFilter 2 acc)
        (rankFilter 3 acc)
        (fun x hx => by
          rcases List.mem_append.mp hx with hx' | hx'
          · rcases List.mem_append.mp hx' with hx2 | hx2 <;>
              (rw [mem_rankFilter hx2]; omega)
          · rw [mem_rankFilter hx']; omega)
        (fun x hx => by rw [mem_rankFilter hx]; omega)
    simp only [rankBlocks, rankFilter_append, rankFilter_singleton, h]
    rw [key]
    simp
  · have key := insert_into_blocks m
        (rankFilter 0 acc ++ rankFilter 1 acc ++ rankFilter 2 acc ++
          rankFilter 3 acc) []
        (fun x hx => by
          rcases List.mem_append.mp hx with hx' | hx'
          · rcases List.mem_append.mp hx' with hx2 | hx2
            · rcases List.mem_append.mp hx2 with hx3 | hx3 <;>
                (rw [mem_rankFilter hx3]; omega)
            · rw [mem_rankFilter hx2]; omega
          · rw [mem_rankFilter hx']; omega)
        (fun x hx => by simp at hx)
    simp only [rankBlocks, rankFilter_append, rankFilter_singleton, h]
    rw [show rankFilter 0 acc ++ rankFilter 1 acc ++ rankFilter 2 acc ++
        rankFilter 3 acc
      = (rankFilter 0 acc ++ rankFilter 1 acc ++ rankFilter 2 acc ++
          rankFilter 3 acc) ++ [] by simp]
    rw [key]
    simp

theorem foldl_insertStable (l : List Message) :
    ∀ acc : List Message,
      l.foldl insertStable (rankBlocks acc) = rankBlocks (acc ++ l) := by
  induction l with
  | nil => intro acc; simp
  | cons m rest ih =>
    intro acc
    simp only [List.foldl_cons, insertStable_rankBlocks]
    rw [ih (acc ++ [m])]
    simp

/-- Stable sorting by priority rank yields exactly the four priority
blocks, each in arrival order. -/
theorem sortQueue_eq_rankBlocks (l : List Message) :
    sortQueue l = rankBlocks l := by
  have h := foldl_insertStable l []
  simpa [sortQueue, rankBlocks, rankFilter] using h

/-- The scenario's first message: priority low, published first. -/
def lowMsg : Message :=
  { id := "m1", timestamp := "t1", from_agent := "coordinator",
    to_agent := "worker", message_type := MessageType.status_update,
    payload := [], priority := "low" }

/-- The scenario's second message: priority urgent. -/
def urgentMsg : Message :=
  { id := "m2", timestamp := "t2", from_agent := "coordinator",
    to_agent := "worker", message_type := MessageType.status_update,
    payload := [], priority := "urgent" }

/-- The scenario's third message: priority normal. -/
def normalMsg : Message :=
  { id := "m3", timestamp := "t3", from_agent := "coordinator",
    to_agent := "worker", message_type := MessageType.status_update,
    payload := [], priority := "normal" }

/-- Bus after publishing low, urgent, normal to `"worker"` in that order. -/
def threeMsgBus : BusState :=
  (publish_message
    ((publish_message
      ((publish_message emptyBus "m1" "t1" "coordinator" "worker"
        MessageType.status_update [] "low" false).2)
      "m2" "t2" "coordinator" "worker"
      MessageType.status_update [] "urgent" false).2)
    "m3" "t3" "coordinator" "worker"
    MessageType.status_update [] "normal" false).2

/-- C4: every `publish_message` re-establishes the recipient's queue as the
stable priority order — the urgent block, then high, then normal, then low,
ties in arrival order (`rankBlocks` of the queue with the new message
appended); and publishing [low, urgent, normal] to one recipient makes
`get_pending_messages` return them as [urgent, normal, low]. -/
theorem C4_priority_ordering :
    (∀ (b : BusState) (fresh_id ts fa ta : String) (mt : MessageType)
       (pl : List (String × Value)) (pr : String) (rr : Bool),
       dictGet (publish_message b fresh_id ts fa ta mt pl pr rr).2.messages ta
         = some (rankBlocks (((dictGet b.messages ta).getD []) ++
             [{ id := fresh_id, timestamp := ts, from_agent := fa,
                to_agent := ta, message_type := mt, payload := pl,
                priority := pr, requires_response := rr }]))) ∧
    get_pending_messages threeMsgBus "worker" 10
      = [urgentMsg, normalMsg, lowMsg] := by
  constructor
  · intro b fresh_id ts fa ta mt pl pr rr
    simp [publish_message, dictGet_dictSet_self, sortQueue_eq_rankBlocks]
  · rfl

/-- The subscriber callbacks registered for an agent. -/
def subsOf (b : BusState) (agent : String) : List Nat :=
  (dictGet b.subscribers agent).getD []

/-- The messages a given callback has been invoked on, in call order. -/
def invokedOn (b : BusState) (cb : Nat) : List Message :=
  (b.invocations.filter (fun p => p.1 == cb)).map Prod.snd

/-- Arguments of one `publish_message` call. -/
structure PubInput where
  fresh_id : String
  ts : String
  from_agent : String
  to_agent : String
  mt : MessageType
  payload : List (String × Value)
  priority : String
  rr : Bool

/-- The `Message` a publish call constructs from its inputs. -/
def PubInput.msg (i : PubInput) : Message :=
  { id := i.fresh_id, timestamp := i.ts, from_agent := i.from_agent,
    to_agent := i.to_agent, message_type := i.mt, payload := i.payload,
    priority := i.priority, requires_response := i.rr }

/-- Run a sequence of `publish_message` calls. -/
def publishSeq (b : BusState) : List PubInput → BusState
  | [] => b
  | i :: rest =>
    publishSeq (publish_message b i.fresh_id i.ts i.from_agent i.to_agent
      i.mt i.payload i.priority i.rr).2 rest

/-- The messages of a publish sequence addressed to one agent, in order. -/
def msgsTo (agent : String) (inps : List PubInput) : List Message :=
  (inps.filter (fun i => i.to_agent == agent)).map PubInput.msg

theorem filter_fst_map (ms : Message) (cb : Nat) (l : List Nat) :
    ((l.map (fun c => (c, ms))).filter (fun p => p.1 == cb)).map Prod.snd
      = (l.filter (fun c => c == cb)).map (fun _ => ms) := by
  induction l with
  | nil => rfl
  | cons c rest ih =>
    by_cases h : c = cb
    · simp only [List.map_cons, List.filter_cons]
      simp [h, ih]
    · simp only [List.map_cons, List.filter_cons]
      simp [h, ih]

theorem invokedOn_publish (b : BusState) (i : PubInput) (cb : Nat) (agent : String)
    (hcount : (subsOf b agent).count cb = 1)
    (hother : ∀ ag, ag ≠ agent → cb ∉ subsOf b ag) :
    invokedOn (publish_message b i.fresh_id i.ts i.from_agent i.to_agent
        i.mt i.payload i.priority i.rr).2 cb
      = invokedOn b cb ++ (if i.to_agent = agent then [i.msg] else []) := by
  simp only [invokedOn, publish_message, List.filter_append, List.map_append]
  congr 1
  rw [filter_fst_map]
  rw [show (dictGet b.subscribers i.to_agent).getD [] = subsOf b i.to_agent
    from rfl]
  by_cases hto : i.to_agent = agent
  · rw [hto, List.filter_beq, hcount]
    simp [hto, PubInput.msg]
  · have hz : (subsOf b i.to_agent).count cb = 0 :=
      List.count_eq_zero.mpr (hother i.to_agent hto)
    rw [List.filter_beq, hz]
    simp [hto]

theorem invokedOn_publishSeq (inps : List PubInput) (cb : Nat) (agent : String) :
    ∀ b : BusState, (subsOf b agent).count cb = 1 →
      (∀ ag, ag ≠ agent → cb ∉ subsOf b ag) →
      invokedOn (publishSeq b inps) cb = invokedOn b cb ++ msgsTo agent inps := by
  induction inps with
  | nil => intro b _ _; simp [publishSeq, msgsTo]
  | cons i rest ih =>
    intro b hcount hother
    have hsubs : (publish_message b i.fresh_id i.ts i.from_agent i.to_agent
        i.mt i.payload i.priority i.rr).2.subscribers = b.subscribers := rfl
    have hstep := invokedOn_publish b i cb agent hcount hother
    simp only [publishSeq]
    rw [ih _ (by rw [show subsOf (publish_message b i.fresh_id i.ts i.from_agent
          i.to_agent i.mt i.payload i.priority i.rr).2 agent = subsOf b agent
        from rfl]; exact hcount)
      (by intro ag hag
          rw [show subsOf (publish_message b i.fresh_id i.ts i.from_agent
            i.to_agent i.mt i.payload i.priority i.rr).2 ag = subsOf b ag
            from rfl]
          exact hother ag hag)]
    rw [hstep]
    by_cases hto : i.to_agent = agent
    · simp [msgsTo, List.filter_cons, hto]
    · simp [msgsTo, List.filter_cons, hto]

/-- The message `oneMsgBus` holds, queued for `"bob"`. -/
def preSubMsg : Message :=
  { id := "m1", timestamp := "t1", from_agent := "coordinator",
    to_agent := "bob", message_type := MessageType.task_assignment,
    payload := [], priority := "normal" }

/-- C5 counterexample: with `preSubMsg` already queued for `"bob"`,
`subscribe_to_messages` performs no callback invocation at all (the
invocation log stays empty), so the callback has NOT been invoked on the
previously queued message, contrary to the claim. -/
theorem C5_counterexample :
    (dictGet oneMsgBus.messages "bob").getD [] = [preSubMsg] ∧
    (subscribe_to_messages oneMsgBus "bob" 0).invocations = [] :=
  ⟨rfl, rfl⟩

/-- C5 as amended: `subscribe_to_messages` registers the handler without
replaying the backlog — it performs no invocation and leaves the queue
as is; afterwards the new callback is invoked exactly once per message
published to `agent_id`, in publish order, and on nothing else. -/
theorem C5_subscribe_no_backlog :
    (∀ (b : BusState) (agent : String) (cb : Nat),
       (subscribe_to_messages b agent cb).invocations = b.invocations ∧
       (dictGet (subscribe_to_messages b agent cb).messages agent).getD []
         = (dictGet b.messages agent).getD []) ∧
    (∀ (b : BusState) (agent : String) (cb : Nat) (inps : List PubInput),
       (∀ p ∈ b.invocations, p.1 ≠ cb) →
       (∀ ag, cb ∉ subsOf b ag) →
       invokedOn (publishSeq (subscribe_to_messages b agent cb) inps) cb
         = msgsTo agent inps) := by
  constructor
  · intro b agent cb
    refine ⟨rfl, ?_⟩
    simp only [subscribe_to_messages]
    by_cases h : (dictGet b.messages agent).isSome = true
    · simp [h]
    · rw [Option.not_isSome_iff_eq_none] at h
      simp [Option.isSome_none, h, dictGet_dictSet_self]
  · intro b agent cb inps hinv hsub
    have hcount : (subsOf (subscribe_to_messages b agent cb) agent).count cb = 1 := by
      have : subsOf (subscribe_to_messages b agent cb) agent
          = subsOf b agent ++ [cb] := by
        simp [subsOf, subscribe_to_messages, dictGet_dictSet_self]
      rw [this, List.count_append, List.count_eq_zero.mpr (hsub agent)]
      simp
    have hother : ∀ ag, ag ≠ agent →
        cb ∉ subsOf (subscribe_to_messages b agent cb) ag := by
      intro ag hag
      have : subsOf (subscribe_to_messages b agent cb) ag = subsOf b ag := by
        simp [subsOf, subscribe_to_messages,
          dictGet_dictSet_ne _ _ _ _ (Ne.symm hag)]
      rw [this]
      exact hsub ag
    rw [invokedOn_publishSeq inps cb agent _ hcount hother]
    have hnil : invokedOn (subscribe_to_messages b agent cb) cb = [] := by
      have : (subscribe_to_messages b agent cb).invocations = b.invocations := rfl
      simp only [invokedOn, this]
      rw [List.filter_eq_nil_iff.mpr]
      · rfl
      · intro p hp
        simpa using hinv p hp
    rw [hnil]
    rfl

/-- Subscribe on an empty bus, then publish to `"bob"` and to `"alice"`:
callback `0` (bob's) is invoked exactly on the message to `"bob"`. -/
theorem C5_subscribe_no_backlog_witness :
    invokedOn (publishSeq (subscribe_to_messages emptyBus "bob" 0)
        [{ fresh_id := "m1", ts := "t1", from_agent := "s", to_agent := "bob",
           mt := MessageType.request, payload := [], priority := "normal",
           rr := false },
         { fresh_id := "m2", ts := "t2", from_agent := "s", to_agent := "alice",
           mt := MessageType.request, payload := [], priority := "normal",
           rr := false }]) 0
      = msgsTo "bob"
        [{ fresh_id := "m1", ts := "t1", from_agent := "s", to_agent := "bob",
           mt := MessageType.request, payload := [], priority := "normal",
           rr := false },
         { fresh_id := "m2", ts := "t2", from_agent := "s", to_agent := "alice",
           mt := MessageType.request, payload := [], priority := "normal",
           rr := false }] :=
  C5_subscribe_no_backlog.2 emptyBus "bob" 0 _
    (by intro p hp; simp [emptyBus] at hp)
    (by intro ag; simp [subsOf, emptyBus, dictGet])

/-- Python `needle.startswith`-style prefix test on character lists. -/
def charsPrefix : List Char → List Char → Bool
  | [], _ => true
  | _ :: _, [] => false
  | a :: as, b :: bs => a == b && charsPrefix as bs

/-- Python `needle in hay` substring containment on character lists. -/
def charsContain : List Char → List Char → Bool
  | hay, needle =>
    match hay with
    | [] => charsPrefix needle []
    | _ :: rest => charsPrefix needle hay || charsContain rest needle

/-- Python `needle in hay` on strings (`hay` already lowercased by the
caller, as in `_analyze_task_type`). -/
def strIn (needle hay : String) : Bool :=
  charsContain hay.data needle.data

/-- Python `description.lower()`, character by character (the source only
compares against ASCII keywords, where Python and `Char.toLower` agree). -/
def strLower (s : String) : String :=
  String.mk (s.data.map Char.toLower)

/-- `CoordinatorAgent._analyze_task_type`: the ordered keyword rules. -/
def analyze_task_type (description : String) : String :=
  let d := strLower description
  if strIn "add" d || strIn "create" d || strIn "implement" d ||
      strIn "new feature" d then
    if strIn "watch" d || strIn "android" d then "add_watch_feature"
    else "add_dashboard_feature"
  else if strIn "fix" d || strIn "bug" d || strIn "error" d ||
      strIn "issue" d then "fix_bug"
  else if strIn "test" d || strIn "verify" d || strIn "validate" d then
    "run_tests"
  else if strIn "deploy" d || strIn "release" d || strIn "publish" d then
    if strIn "dashboard" d then "deploy_dashboard"
    else if strIn "watch" d then "build_watch_app"
    else "deploy_dashboard"
  else if strIn "scrape" d || strIn "fetch" d || strIn "download" d then
    "scrape_website"
  else if strIn "post" d || strIn "tweet" d || strIn "social" d then
    "send_slack_message"
  else "add_dashboard_feature"

/-- One entry of the coordinator's workflow registry. Modelled from the
spec: the registry itself is configuration data (`workflow_registry` in the
agent-roles YAML, not part of the sources); §4.4/§6 of the spec describe
each entry as a `{workflow, assigned_agent role, required_tools}` record,
which `route_incoming_task` reads via `workflow_info['workflow']`,
`.get('assigned_agent')` and `.get('required_tools', [])`. -/
structure WorkflowInfo where
  workflow : String
  assigned_agent : String
  required_tools : List String

/-- `CoordinatorAgent._find_workflow`: static registry lookup. -/
def find_workflow (workflow_registry : List (String × WorkflowInfo))
    (task_type : String) : Option WorkflowInfo :=
  dictGet workflow_registry task_type

/-- An entry of the coordinator's in-memory `task_queue`. -/
structure QueuedTask where
  description : String
  priority : String
  task_type : String
  workflow : WorkflowInfo

/-- `AgentRegistry.get_available_agents`: spare capacity, status IDLE or
BUSY, and the optional capability filter. -/
def get_available_agents (agents : List Agent) (capability : Option String) :
    List Agent :=
  agents.filter (fun a =>
    decide (a.current_tasks.length < a.max_concurrent_tasks) &&
    (a.status == AgentStatus.idle || a.status == AgentStatus.busy) &&
    (match capability with
     | none => true
     | some c => a.capabilities.contains c))

/-- Python `min(agents, key=lambda a: len(a.current_tasks))`: the first
agent whose task count is minimal (later agents replace the current best
only on strictly fewer tasks). -/
def minLoad (best : Agent) : List Agent → Agent
  | [] => best
  | a :: rest =>
    if a.current_tasks.length < best.current_tasks.length then minLoad a rest
    else minLoad best rest

theorem minLoad_mem (l : List Agent) : ∀ best, minLoad best l ∈ best :: l := by
  induction l with
  | nil => intro best; simp [minLoad]
  | cons a rest ih =>
    intro best
    simp only [minLoad]
    by_cases h : a.current_tasks.length < best.current_tasks.length
    · rw [if_pos h]
      rcases List.mem_cons.mp (ih a) with h' | h'
      · rw [h']; exact List.mem_cons_of_mem best (List.mem_cons_self a rest)
      · exact List.mem_cons_of_mem best (List.mem_cons_of_mem a h')
    · rw [if_neg h]
      rcases List.mem_cons.mp (ih best) with h' | h'
      · rw [h']; exact List.mem_cons_self best (a :: rest)
      · exact List.mem_cons_of_mem best (List.mem_cons_of_mem a h')

theorem minLoad_le_best (l : List Agent) :
    ∀ best, (minLoad best l).current_tasks.length ≤ best.current_tasks.length := by
  induction l with
  | nil => intro best; exact Nat.le_refl _
  | cons a rest ih =>
    intro best
    simp only [minLoad]
    by_cases h : a.current_tasks.length < best.current_tasks.length
    · rw [if_pos h]
      exact Nat.le_trans (ih a) (Nat.le_of_lt h)
    · rw [if_neg h]
      exact ih best

theorem minLoad_le_mem (l : List Agent) :
    ∀ best, ∀ x ∈ l,
      (minLoad best l).current_tasks.length ≤ x.current_tasks.length := by
  induction l with
  | nil => intro best x hx; simp at hx
  | cons a rest ih =>
    intro best x hx
    simp only [minLoad]
    rcases List.mem_cons.mp hx with h' | h'
    · by_cases h : a.current_tasks.length < best.current_tasks.length
      · rw [if_pos h, h']
        exact minLoad_le_best rest a
      · rw [if_neg h, h']
        exact Nat.le_trans (minLoad_le_best rest best) (Nat.le_of_not_lt h)
    · by_cases h : a.current_tasks.length < best.current_tasks.length
      · rw [if_pos h]
        exact ih a x h'
      · rw [if_neg h]
        exact ih best x h'

/-- Everything `route_incoming_task` returns or mutates: its boolean
result, the coordinator's in-memory `task_queue`, the message bus, and the
context tree. -/
structure RouteResult where
  ok : Bool
  task_queue : List QueuedTask
  bus : BusState
  ctx : Value

/-- `CoordinatorAgent.route_incoming_task`: classify the description,
look the task type up in the workflow registry (fail without side effects
when absent), filter the available agents for the workflow's role (queue
the task and fail when none), otherwise pick the least-loaded candidate,
publish one TASK_ASSIGNMENT message with the task fields and
`required_tools`, and append the generated task id to
`workflows.in_progress`. The generated uuid-based ids and timestamps are
the explicit `fresh_task_id` / `fresh_msg_id` / `now` / `ts` inputs. The
`append_to_list` failure branch models the `TypeError` being caught by the
routing method's blanket `except` (which returns `False`); the partially
mutated tree in that branch is returned unchanged. -/
def route_incoming_task (workflow_registry : List (String × WorkflowInfo))
    (task_queue : List QueuedTask) (coordinator_id : String)
    (registry_agents : List Agent) (bus : BusState) (ctx : Value)
    (description priority : String)
    (fresh_task_id fresh_msg_id now ts : String) : RouteResult :=
  let task_type := analyze_task_type description
  match find_workflow workflow_registry task_type with
  | none => { ok := false, task_queue := task_queue, bus := bus, ctx := ctx }
  | some wi =>
    let available := get_available_agents registry_agents none
    match available.filter (fun a => a.role == wi.assigned_agent) with
    | [] =>
      { ok := false,
        task_queue := task_queue ++
          [{ description := description, priority := priority,
             task_type := task_type, workflow := wi }],
        bus := bus, ctx := ctx }
    | t0 :: rest =>
      let target := minLoad t0 rest
      let task : Task :=
        { task_id := fresh_task_id, workflow := wi.workflow,
          description := description, priority := priority,
          assigned_at := ts }
      let bus2 := (publish_message bus fresh_msg_id now coordinator_id
        target.agent_id MessageType.task_assignment
        [("task_id", Value.str task.task_id),
         ("workflow", Value.str task.workflow),
         ("description", Value.str task.description),
         ("priority", Value.str task.priority),
         ("required_tools", Value.list (wi.required_tools.map Value.str))]
        priority false).2
      match append_to_list ctx "workflows.in_progress"
          (Value.str task.task_id) with
      | some (_, ctx2) =>
        { ok := true, task_queue := task_queue, bus := bus2, ctx := ctx2 }
      | none =>
        { ok := false, task_queue := task_queue, bus := bus2, ctx := ctx }

/-- C3: the three routing outcomes. (1) No workflow entry for the
classified task type: `False`, nothing created. (2) Entry found but no
available agent of the assigned role: the task data is appended to the
in-memory queue, `False`, bus and context untouched. (3) Some available
agent matches: the least-loaded matching agent is selected, exactly one
TASK_ASSIGNMENT message carrying the task fields and `required_tools` is
published to it, the generated task id is appended to the
`workflows.in_progress` context list, and the call returns `True`. -/
theorem C3_routing :
    (∀ (wr : List (String × WorkflowInfo)) (tq : List QueuedTask)
       (cid : String) (agents : List Agent) (bus : BusState) (ctx : Value)
       (desc pr ftid fmid now ts : String),
       find_workflow wr (analyze_task_type desc) = none →
       route_incoming_task wr tq cid agents bus ctx desc pr ftid fmid now ts
         = { ok := false, task_queue := tq, bus := bus, ctx := ctx }) ∧
    (∀ (wr : List (String × WorkflowInfo)) (tq : List QueuedTask)
       (cid : String) (agents : List Agent) (bus : BusState) (ctx : Value)
       (desc pr ftid fmid now ts : String) (wi : WorkflowInfo),
       find_workflow wr (analyze_task_type desc) = some wi →
       (get_available_agents agents none).filter
           (fun a => a.role == wi.assigned_agent) = [] →
       route_incoming_task wr tq cid agents bus ctx desc pr ftid fmid now ts
         = { ok := false,
             task_queue := tq ++
               [{ description := desc, priority := pr,
                  task_type := analyze_task_type desc, workflow := wi }],
             bus := bus, ctx := ctx }) ∧
    (∀ (wr : List (String × WorkflowInfo)) (tq : List QueuedTask)
       (cid : String) (agents : List Agent) (bus : BusState) (ctx : Value)
       (desc pr ftid fmid now ts : String) (wi : WorkflowInfo)
       (t0 : Agent) (rest : List Agent) (ipl : List Value),
       find_workflow wr (analyze_task_type desc) = some wi →
       (get_available_agents agents none).filter
           (fun a => a.role == wi.assigned_agent) = t0 :: rest →
       get_context ctx "workflows.in_progress" = some (Value.list ipl) →
       ∃ ctx2 : Value,
         route_incoming_task wr tq cid agents bus ctx desc pr ftid fmid now ts
           = { ok := true, task_queue := tq,
               bus := (publish_message bus fmid now cid
                 (minLoad t0 rest).agent_id MessageType.task_assignment
                 [("task_id", Value.str ftid),
                  ("workflow", Value.str wi.workflow),
                  ("description", Value.str desc),
                  ("priority", Value.str pr),
                  ("required_tools",
                   Value.list (wi.required_tools.map Value.str))]
                 pr false).2,
               ctx := ctx2 } ∧
         minLoad t0 rest ∈ t0 :: rest ∧
         (∀ a ∈ t0 :: rest,
           (minLoad t0 rest).current_tasks.length ≤ a.current_tasks.length) ∧
         get_context ctx2 "workflows.in_progress"
           = some (Value.list (ipl ++ [Value.str ftid]))) := by
  refine ⟨?_, ?_, ?_⟩
  · intro wr tq cid agents bus ctx desc pr ftid fmid now ts h
    simp only [route_incoming_task, h]
  · intro wr tq cid agents bus ctx desc pr ftid fmid now ts wi h hfil
    simp only [route_incoming_task, h, hfil]
  · intro wr tq cid agents bus ctx desc pr ftid fmid now ts wi t0 rest ipl
      h hfil hip
    have hip' : getAtKeys ctx (splitPath "workflows.in_progress")
        = some (Value.list ipl) := hip
    obtain ⟨ctx2, hset⟩ := setAtKeys_of_getAtKeys
      (splitPath "workflows.in_progress") ctx (Value.list ipl)
      (Value.list (ipl ++ [Value.str ftid]))
      (splitPath_ne_nil "workflows.in_progress") hip'
    have happ : append_to_list ctx "workflows.in_progress" (Value.str ftid)
        = some (true, ctx2) := by
      simp only [append_to_list, get_context, hip', Option.getD_some,
        set_context, hset]
    refine ⟨ctx2, ?_, minLoad_mem rest t0, ?_, ?_⟩
    · simp only [route_incoming_task, h, hfil, happ]
    · intro a ha
      rcases List.mem_cons.mp ha with h' | h'
      · rw [h']; exact minLoad_le_best rest t0
      · exact minLoad_le_mem rest t0 a h'
    · exact getAtKeys_setAtKeys (splitPath "workflows.in_progress") ctx ctx2
        _ hset

/-- A workflow registry entry for `fix_bug`. -/
def wiFixBug : WorkflowInfo :=
  { workflow := "development/fix_bug", assigned_agent := "developer_agent",
    required_tools := ["git", "pytest"] }

/-- An idle developer agent with free capacity. -/
def devAgent1 : Agent :=
  { agent_id := "dev-1", role := "developer_agent", capabilities := [],
    workflows := [], status := AgentStatus.idle, current_tasks := [],
    registered_at := "t0", last_heartbeat := "t0",
    max_concurrent_tasks := 3, metadata := [] }

/-- A context tree with an empty `workflows.in_progress` list. -/
def ctxSeed : Value :=
  Value.dict [("workflows", Value.dict [("in_progress", Value.list [])])]

/-- The three routing branches exercised concretely: unknown task type,
no matching agent (queued), and a successful assignment to `dev-1`. -/
theorem C3_routing_witness :
    (route_incoming_task [] [] "coordinator-1" [] emptyBus ctxSeed
        "Fix bug in dashboard API" "urgent" "task_1" "msg_1" "n0" "ts0"
      = { ok := false, task_queue := [], bus := emptyBus, ctx := ctxSeed }) ∧
    (route_incoming_task [("fix_bug", wiFixBug)] [] "coordinator-1" []
        emptyBus ctxSeed
        "Fix bug in dashboard API" "urgent" "task_1" "msg_1" "n0" "ts0"
      = { ok := false,
          task_queue :=
            [] ++ [({ description := "Fix bug in dashboard API",
                      priority := "urgent",
                      task_type :=
                        analyze_task_type "Fix bug in dashboard API",
                      workflow := wiFixBug } : QueuedTask)],
          bus := emptyBus, ctx := ctxSeed }) ∧
    (∃ ctx2 : Value,
      route_incoming_task [("fix_bug", wiFixBug)] [] "coordinator-1"
          [devAgent1] emptyBus ctxSeed
          "Fix bug in dashboard API" "urgent" "task_1" "msg_1" "n0" "ts0"
        = { ok := true, task_queue := [],
            bus := (publish_message emptyBus "msg_1" "n0" "coordinator-1"
              (minLoad devAgent1 []).agent_id MessageType.task_assignment
              [("task_id", Value.str "task_1"),
               ("workflow", Value.str wiFixBug.workflow),
               ("description", Value.str "Fix bug in dashboard API"),
               ("priority", Value.str "urgent"),
               ("required_tools",
                Value.list (wiFixBug.required_tools.map Value.str))]
              "urgent" false).2,
            ctx := ctx2 } ∧
      minLoad devAgent1 [] ∈ [devAgent1] ∧
      (∀ a ∈ [devAgent1],
        (minLoad devAgent1 []).current_tasks.length
          ≤ a.current_tasks.length) ∧
      get_context ctx2 "workflows.in_progress"
        = some (Value.list ([] ++ [Value.str "task_1"]))) :=
  ⟨C3_routing.1 [] [] "coordinator-1" [] emptyBus ctxSeed
      "Fix bug in dashboard API" "urgent" "task_1" "msg_1" "n0" "ts0" rfl,
   C3_routing.2.1 [("fix_bug", wiFixBug)] [] "coordinator-1" [] emptyBus
      ctxSeed "Fix bug in dashboard API" "urgent" "task_1" "msg_1" "n0" "ts0"
      wiFixBug (by rfl) rfl,
   C3_routing.2.2 [("fix_bug", wiFixBug)] [] "coordinator-1" [devAgent1]
      emptyBus ctxSeed "Fix bug in dashboard API" "urgent" "task_1" "msg_1"
      "n0" "ts0" wiFixBug devAgent1 [] [] (by rfl) (by rfl) rfl⟩

end Swarm
